import Mathlib

/-!
Verification of the pipeline coordination logic of the Systematic_reviewer_AI
repository (a multi-stage literature-review pipeline: search, normalization,
screening, full-text retrieval, risk-of-bias assessment, extraction, report).

The Python source is shallowly embedded: pure data flow becomes Lean
functions; every external collaborator (PubMed E-utilities, Unpaywall, PMC,
the local LLM judge, the filesystem, `json.loads`) is modelled as an explicit
environment record of functions, so the per-record control flow of the
repository's own code is reproduced exactly while collaborator behaviour is
universally quantified.  Python strings are Lean `String`s (ASCII-faithful:
`str.lower`/`str.isdigit` are modelled with `Char.toLower`/`Char.isDigit`,
which agree on ASCII), Python `None`-able values are `Option`s, Python dicts
arising from `json.loads` are association lists with unique keys, and a call
that may raise is modelled with an explicit outcome constructor.
-/

/-- A JSON value as far as the pipeline inspects one: the code only ever
distinguishes string values, object values, and everything else (on which
`str()` is the only operation applied; `reprStr` carries that rendering). -/
inductive JVal where
  | str (s : String)
  | obj (fields : List (String × JVal))
  | other (reprStr : String)

/-- `d.get(k)` on a Python dict (association list with unique keys):
the value at key `k`, if present. -/
def assocGet {β : Type} (d : List (String × β)) (k : String) : Option β :=
  (d.find? (fun kv => kv.1 == k)).map (fun kv => kv.2)

/-- `d[k] = v` on a Python dict: replace the value at `k` if the key is
present, otherwise append the new binding. -/
def assocSet {β : Type} (d : List (String × β)) (k : String) (v : β) :
    List (String × β) :=
  if d.any (fun kv => kv.1 == k) then
    d.map (fun kv => if kv.1 == k then (k, v) else kv)
  else
    d ++ [(k, v)]

/-- The keys of an association list, in order. -/
def assocKeys {β : Type} (d : List (String × β)) : List String :=
  d.map (fun kv => kv.1)

/-- Whether `needle` occurs at the head of `hay`. -/
def leadsWith : List Char → List Char → Bool
  | [], _ => true
  | _ :: _, [] => false
  | a :: as, b :: bs => a == b && leadsWith as bs

/-- Whether `needle` occurs contiguously anywhere inside `hay`
(Python's `needle in hay` on strings). -/
def hasSubList (needle : List Char) : List Char → Bool
  | [] => needle.isEmpty
  | c :: t => leadsWith needle (c :: t) || hasSubList needle t

/-- Python `s.lower()` (ASCII model). -/
def lowerString (s : String) : String :=
  String.mk (s.toList.map Char.toLower)

/-- Python `s.endswith(suffix)`. -/
def endsWithB (s suffix : String) : Bool :=
  leadsWith suffix.toList.reverse s.toList.reverse

/-- The opening-brace character, `chr(123)`. -/
def lbrace : Char := Char.ofNat 123

/-- The closing-brace character, `chr(125)`. -/
def rbrace : Char := Char.ofNat 125

/-- Model of `re.search(r"({[\s\S]*})", s)`: the regex matches from the
first opening brace to the last closing brace of the whole string, provided
that closing brace comes after the opening one (leftmost start, greedy
`[\s\S]*`).  Returns the matched block. -/
def braceBlock (s : String) : Option String :=
  let cs := s.toList
  match cs.findIdx? (fun c => c == lbrace) with
  | none => none
  | some i =>
    match cs.reverse.findIdx? (fun c => c == rbrace) with
    | none => none
    | some k =>
      let j := cs.length - 1 - k
      if i < j then some (String.mk ((cs.drop i).take (j - i + 1))) else none

/-- Python `"exclude" in s.lower()` — the screener's decision
normalization test (screener.py line 99). -/
def containsExcludeB (s : String) : Bool :=
  hasSubList "exclude".toList (lowerString s).toList

/-- `int(s)` for a string of ASCII digits. -/
def digitsToNat (s : String) : Nat :=
  s.toList.foldl (fun n c => n * 10 + (c.toNat - 48)) 0

/-- One `<PubmedArticle>` element of the raw PubMed search payload, reduced
to the fields the pipeline reads: the texts of the first `PMID`,
`ArticleId[@IdType='doi']`, `ArticleId[@IdType='pmc']` and `PubDate/Year`
nodes (`none` when the node is absent). -/
structure RawArticle where
  pmid? : Option String
  doi? : Option String
  pmcid? : Option String
  pubYear? : Option String
deriving DecidableEq

/-- Parsed publication year of a raw record (main.py line 220, identical in
app.py line 269): `int(node.text)` when the `Year` node exists and its text
`isdigit()` (non-empty, all digits), else `current_year + 1` ("default to
future if year is missing or invalid"). -/
def parsePubYear (currentYear : Nat) (a : RawArticle) : Nat :=
  match a.pubYear? with
  | some s =>
    if !s.toList.isEmpty && s.toList.all Char.isDigit then digitsToNat s
    else currentYear + 1
  | none => currentYear + 1

/-- The record-normalization filter (main.py lines 218-223, app.py lines
267-271): keep an article iff its parsed publication year is
`≤ current_year`; the surviving elements are re-emitted in input order. -/
def filterByYear (currentYear : Nat) (arts : List RawArticle) : List RawArticle :=
  arts.filter (fun a => decide (parsePubYear currentYear a ≤ currentYear))

/-- Modelled from the spec (§4.3 wording, for comparison with the code):
a record is retained iff its publication year is present, numeric, and at
most the current year. -/
def specRetainedYear (currentYear : Nat) (a : RawArticle) : Bool :=
  match a.pubYear? with
  | none => false
  | some s =>
    !s.toList.isEmpty && s.toList.all Char.isDigit &&
      decide (digitsToNat s ≤ currentYear)

/-- One row of the `articles.csv` DataFrame handed to the screener: the
columns `screen_abstracts` reads (`row.get('pmid'/'title'/'abstract')`). -/
structure ArticleRow where
  pmid : String
  title : String
  abstract : String

/-- Outcome of one `llm.get_completion(messages)` call as seen by a caller:
the call may raise (exceptions other than the connection error the client
catches), or return `None` (connection error absorbed by the client), or
return the completion text. -/
inductive LlmOutcome where
  | raises (msg : String)
  | resp (r : Option String)

/-- Environment of the screening stage: the pluggable judge and the two
stdlib/collaborator boundaries the per-record loop uses.  `connOk` is the
truthiness of the initial `llm.get_completion([... "Test" ...])` probe
(screener.py line 23); `judge` is the per-record completion call keyed by
the row the prompt is built from; `jsonParse` is `json.loads` restricted to
the brace block handed to it (`none` when it raises `JSONDecodeError`). -/
structure ScreenEnv where
  connOk : Bool
  judge : ArticleRow → LlmOutcome
  jsonParse : String → Option (List (String × JVal))

/-- How the per-record `try` body of screener.py lines 78-96 classifies the
judge call before decision normalization. -/
inductive ParsedJudge where
  | failRaises (msg : String)
  | failNoResp
  | failNoBlock
  | failDecode
  | parsed (data : List (String × JVal))

/-- Classify one record's judge interaction (screener.py lines 79-96):
exception from the call, `None` response, response without a
`({[\s\S]*})` match, matched block that `json.loads` rejects, or a parsed
JSON object. -/
def classifyJudge (env : ScreenEnv) (r : ArticleRow) : ParsedJudge :=
  match env.judge r with
  | .raises m => .failRaises m
  | .resp none => .failNoResp
  | .resp (some response) =>
    match braceBlock response with
    | none => .failNoBlock
    | some block =>
      match env.jsonParse block with
      | none => .failDecode
      | some data => .parsed data

/-- `True` iff the judge interaction for this record failed to produce a
parsed JSON object. -/
def judgeFailedB (env : ScreenEnv) (r : ArticleRow) : Bool :=
  match classifyJudge env r with
  | .parsed _ => false
  | _ => true

/-- Decision normalization (screener.py lines 99-102):
`"Excluded" if "exclude" in decision.lower() else "Included"`. -/
def normalizeDecision (s : String) : String :=
  if containsExcludeB s then "Excluded" else "Included"

/-- One result row appended by the screening loop.  `reason` is kept as a
JSON value because Python stores `data.get("reason", ...)` unconverted. -/
structure ScreenedRow where
  pmid : String
  decision : String
  reason : JVal

/-- The `reason` the code stores for a parsed JSON object:
`data.get("reason", "No reason provided")` (screener.py line 90). -/
def reasonOf (data : List (String × JVal)) : JVal :=
  match assocGet data "reason" with
  | some v => v
  | none => .str "No reason provided"

/-- Screen a single record (the loop body, screener.py lines 56-108).
For a parsed object the decision is `data.get("decision", "Included")`
normalized by `normalizeDecision`; a non-string decision value makes
`decision.lower()` raise `AttributeError`, which the surrounding
`except Exception` turns into `Included` with an error reason (the exact
interpolated message of `str(e)` is abstracted to the exception name).
Every failure path yields `Included` with a reason naming the failure. -/
def screenOne (env : ScreenEnv) (r : ArticleRow) : ScreenedRow :=
  match classifyJudge env r with
  | .failRaises m => ⟨r.pmid, "Included", .str ("Error during screening: " ++ m)⟩
  | .failNoResp => ⟨r.pmid, "Included", .str "No response from LLM"⟩
  | .failNoBlock => ⟨r.pmid, "Included", .str "No JSON found in response"⟩
  | .failDecode => ⟨r.pmid, "Included", .str "JSON Decode Error"⟩
  | .parsed data =>
    match assocGet data "decision" with
    | some (.str s) => ⟨r.pmid, normalizeDecision s, reasonOf data⟩
    | some (.obj _) => ⟨r.pmid, "Included", .str "Error during screening: AttributeError"⟩
    | some (.other _) => ⟨r.pmid, "Included", .str "Error during screening: AttributeError"⟩
    | none => ⟨r.pmid, normalizeDecision "Included", reasonOf data⟩

/-- `screen_abstracts` (screener.py lines 7-119).  When the connection
probe fails every row is marked `Included` with reason `LLM Unavailable`
(lines 23-27); otherwise each row is screened independently by the loop.
The final `pd.merge` on `pmid` is modelled as the positional result list
(faithful when pmids are unique, which upstream esearch ids are). -/
def screen_abstracts (env : ScreenEnv) (rows : List ArticleRow) : List ScreenedRow :=
  if env.connOk then
    rows.map (fun r => screenOne env r)
  else
    rows.map (fun r => ⟨r.pmid, "Included", .str "LLM Unavailable"⟩)

/-- The decision string the code extracted from the judge's JSON, when the
interaction produced a parsed object whose `decision` field is a string;
`none` in every other case (no parse, missing field, non-string field). -/
def parsedDecisionStr (env : ScreenEnv) (r : ArticleRow) : Option String :=
  match classifyJudge env r with
  | .parsed data =>
    match assocGet data "decision" with
    | some (.str s) => some s
    | _ => none
  | _ => none

/-- Environment of the retrieval stage (downloader.py): the filesystem
check for an already-present artifact keyed by pmid
(`os.path.exists(output_dir/{pmid}.pdf)`), the Unpaywall resolution
(`get_unpaywall_pdf_url`, which returns `None` both on "no OA location"
and on a request error it catches itself), the streaming download of a
resolved URL (`download_pdf_from_url`, `False` on failure), and the direct
PMC fetch (`try_pmc_download`, `False` on failure). -/
structure DlEnv where
  fileExists : String → Bool
  unpaywallUrl : String → Option String
  urlDownloadOk : String → Bool
  pmcOk : String → Bool

/-- One external interaction of the retrieval fallback chain, recorded in
order of occurrence. -/
inductive DlCall where
  | unpaywall (doi : String)
  | urlGet (url : String)
  | pmcFetch (pmcid : String)
deriving DecidableEq

/-- Process one article of the retrieval loop (downloader.py lines
123-169) given its resolved `pmid` key: returns the single status string
the `download_status` dict ends up holding for it, together with the
ordered trace of external calls made.  Faithful points: an existing
artifact short-circuits before any call (`continue`, lines 129-133); the
Unpaywall strategy runs only for a truthy doi; its intermediate
`"Download Failed (Unpaywall)"` entry is always overwritten by
`"No OA Source Found"` when the PMC strategy does not succeed (lines
162-164); PMC is attempted only for a truthy pmcid and only when
Unpaywall did not download. -/
def processArticle (env : DlEnv) (a : RawArticle) (pmid : String) :
    String × List DlCall :=
  if env.fileExists pmid then ("Already Downloaded", [])
  else
    let step1 : Option String × List DlCall :=
      match a.doi? with
      | some d =>
        if d.toList.isEmpty then (none, [])
        else
          match env.unpaywallUrl d with
          | some url =>
            if env.urlDownloadOk url then (some "Downloaded (Unpaywall)", [.unpaywall d, .urlGet url])
            else (none, [.unpaywall d, .urlGet url])
          | none => (none, [.unpaywall d])
      | none => (none, [])
    match step1 with
    | (some s, calls) => (s, calls)
    | (none, calls1) =>
      let step2 : Option String × List DlCall :=
        match a.pmcid? with
        | some p =>
          if p.toList.isEmpty then (none, [])
          else if env.pmcOk p then (some "Downloaded (PMC)", [.pmcFetch p])
          else (none, [.pmcFetch p])
        | none => (none, [])
      match step2 with
      | (some s, calls2) => (s, calls1 ++ calls2)
      | (none, calls2) => ("No OA Source Found", calls1 ++ calls2)

/-- The pmid key used for the article at loop index `i` (downloader.py
line 125): the `PMID` node text, or `unknown_{i+1}` when the node is
absent. -/
def pmidKeyOf (i : Nat) (a : RawArticle) : String :=
  match a.pmid? with
  | some p => p
  | none => "unknown_" ++ toString (i + 1)

/-- The `allowed_pmids` filter (downloader.py lines 104-112): keep only
articles whose `PMID` text is truthy (non-empty) and belongs to the
allowed list. -/
def filterAllowed (arts : List RawArticle) (allowed : List String) :
    List RawArticle :=
  arts.filter (fun a =>
    match a.pmid? with
    | some p => !p.toList.isEmpty && allowed.contains p
    | none => false)

/-- The retrieval loop (downloader.py lines 123-169) building the
`download_status` dict: sequential fold over the (filtered) articles with
their loop index, one dict write per article.  The politeness
`time.sleep(1)` is a configuration knob without data flow and is not
modelled; `env.fileExists` is the state of the artifact directory at stage
start (files created by the run itself only matter when one pmid occurs
twice in the XML, which esearch id lists preclude). -/
def runDownloadsAux (env : DlEnv) :
    Nat → List RawArticle → List (String × String) → List (String × String)
  | _, [], m => m
  | i, a :: rest, m =>
    runDownloadsAux env (i + 1) rest
      (assocSet m (pmidKeyOf i a) (processArticle env a (pmidKeyOf i a)).1)

/-- The articles the retrieval loop iterates over: the `allowed_pmids`
filter when a list was passed, the whole XML otherwise. -/
def processedArts (arts : List RawArticle) (allowed? : Option (List String)) :
    List RawArticle :=
  match allowed? with
  | some allowed => filterAllowed arts allowed
  | none => arts

/-- `download_pdfs_from_xml` (downloader.py lines 77-172) restricted to
its data flow: XML parsing is upstream of the model (`arts` is the list of
`PubmedArticle` elements), and the returned value is the
`download_status` mapping pmid → status string. -/
def download_pdfs_from_xml (env : DlEnv) (arts : List RawArticle)
    (allowed? : Option (List String)) : List (String × String) :=
  runDownloadsAux env 0 (processedArts arts allowed?) []

/-- The run statistics record initialized in main.py lines 124-130. -/
structure RunStats where
  total_found : Nat
  screened : Nat
  excluded : Nat
  included : Nat
  retrieved : Nat

/-- The screening-stage statistics update (main.py lines 262-269):
`screened = len(screened_df)`, `included = len(included_df)` for the
`screening_decision == 'Included'` filter, `excluded = screened -
included`. -/
def screenStatsUpdate (s : RunStats) (screened : List ScreenedRow) : RunStats :=
  let n := screened.length
  let k := (screened.filter (fun r => r.decision == "Included")).length
  { s with screened := n, included := k, excluded := n - k }

/-- `included_pmids` (main.py lines 265-266): the pmid column of the
included rows. -/
def includedPmids (screened : List ScreenedRow) : List String :=
  (screened.filter (fun r => r.decision == "Included")).map (fun r => r.pmid)

/-- The download statuses counted as retrieved (main.py line 309). -/
def downloadedStatuses : List String :=
  ["Downloaded", "Already Downloaded", "Downloaded (Unpaywall)", "Downloaded (PMC)"]

/-- The retrieval-stage statistics update (main.py lines 308-310):
`retrieved = len([k for k, v in status.items() if v in downloaded])`. -/
def retrievalStatsUpdate (s : RunStats) (status : List (String × String)) : RunStats :=
  { s with retrieved := (status.filter (fun kv => downloadedStatuses.contains kv.2)).length }

/-- The statistics flow of one run of main.py relevant to the funnel
invariant: screening updates `screened/included/excluded` from the
screened ledger, then retrieval is attempted for exactly the included
pmids and updates `retrieved` from the resulting status dict. -/
def pipelineStats (s0 : RunStats) (screened : List ScreenedRow)
    (env : DlEnv) (arts : List RawArticle) : RunStats :=
  let s1 := screenStatsUpdate s0 screened
  let status := download_pdfs_from_xml env arts (some (includedPmids screened))
  retrievalStatsUpdate s1 status

/-- The fields of an NCBI esearch JSON response the repository touches:
`esearchresult.idlist` (read by `fetch_pmids`) and `esearchresult.count`
(the total hit count, present in the response but never read). -/
structure EsearchResult where
  idlist : List String
  count : Nat

/-- Environment of the search client (pubmed.py): the esearch HTTP call
keyed by query and `retmax` (`Except.error` models a raised
`requests.exceptions.RequestException`), and the efetch POST keyed by the
comma-joined id string. -/
structure PubmedEnv where
  esearch : String → Nat → Except String EsearchResult
  efetchPost : String → Except String String

/-- `fetch_pmids` (pubmed.py lines 8-50): returns
`data.get('esearchresult', {}).get('idlist', [])` on success and `[]` on a
request error.  Note the function returns ONLY the id list — the
response's `count` field is never read and no pair is returned.  The
`sort`/`mindate`/`maxdate` parameters only shape the HTTP request and are
absorbed into the environment. -/
def fetch_pmids (env : PubmedEnv) (query : String) (maxRet : Nat) : List String :=
  match env.esearch query maxRet with
  | .ok data => data.idlist
  | .error _ => []

/-- Python tuple unpacking `a, b = l` of a list: succeeds exactly when the
list has two elements, otherwise raises `ValueError`. -/
def tupleUnpack2 (l : List String) : Except String (String × String) :=
  match l with
  | [a, b] => .ok (a, b)
  | _ => .error "ValueError: unpack"

/-- The count-only probe of main.py lines 159-165 (identical in app.py
line 249): `initial_pmids, total_count = pubmed.fetch_pmids(query,
max_ret=1, ...)` — tuple-unpacking whatever `fetch_pmids` returns. -/
def mainCountProbe (env : PubmedEnv) (query : String) :
    Except String (String × String) :=
  tupleUnpack2 (fetch_pmids env query 1)

/-- Return value of `fetch_abstracts` (pubmed.py lines 52-88): `{}` for an
empty pmid list, the response text on success, `None` when the POST raises
a `requests.exceptions.RequestException` (caught, lines 86-88). -/
inductive FetchAbstractsResult where
  | emptyMap
  | xml (body : String)
  | failed
deriving DecidableEq

/-- `fetch_abstracts` (pubmed.py lines 52-88): early-return `{}` on an
empty input, otherwise POST the comma-joined ids and degrade a request
error to `None` instead of raising. -/
def fetch_abstracts (env : PubmedEnv) (pmids : List String) : FetchAbstractsResult :=
  if pmids.isEmpty then .emptyMap
  else
    match env.efetchPost (String.intercalate "," pmids) with
    | .ok body => .xml body
    | .error _ => .failed

/-- Environment of the risk-of-bias stage (assessor.py): `extractText` is
`tei_parser.extract_text_from_tei`, which catches all its own exceptions
and returns a string (`""` on failure); `llm` is the completion call keyed
by the text snippet the prompt embeds; `jsonParse` as in the screener. -/
structure RobEnv where
  extractText : String → String
  llm : String → LlmOutcome
  jsonParse : String → Option (List (String × JVal))

/-- The snippet truncation of assessor.py line 20:
`(full_text[:12000] + '...') if len(full_text) > 12000 else full_text`. -/
def snippet12k (s : String) : String :=
  if s.toList.length > 12000 then String.mk (s.toList.take 12000) ++ "..." else s

/-- `assess_risk_of_bias` (assessor.py lines 8-64): empty extracted text
returns `None`; the LLM call and JSON parse sit inside
`try ... except Exception`, so a raising judge, a `None` response, a
response without a brace block, and an unparsable block all return `None`;
only a parsed JSON object is returned. -/
def assess_risk_of_bias (env : RobEnv) (teiPath : String) :
    Option (List (String × JVal)) :=
  let fullText := env.extractText teiPath
  if fullText.toList.isEmpty then none
  else
    match env.llm (snippet12k fullText) with
    | .raises _ => none
    | .resp none => none
    | .resp (some response) =>
      match braceBlock response with
      | none => none
      | some block => env.jsonParse block

/-- Flattening of one parsed assessment into a result row (assessor.py
lines 89-96): a dict-valued domain contributes `{domain}_Level` (default
`Unclear`) and `{domain}_Explanation` (default `''`); any other value is
stored under the domain key via `str(...)`. -/
def flattenRob (pmid : String) (assessment : List (String × JVal)) :
    List (String × JVal) :=
  ("pmid", JVal.str pmid) ::
    assessment.foldr
      (fun dv acc =>
        match dv.2 with
        | .obj fields =>
          (dv.1 ++ "_Level", (assocGet fields "level").getD (.str "Unclear")) ::
          (dv.1 ++ "_Explanation", (assocGet fields "explanation").getD (.str ""))
          :: acc
        | .str s => (dv.1, JVal.str s) :: acc
        | .other r => (dv.1, JVal.str r) :: acc)
      []

/-- The per-file outcome of the RoB batch loop (assessor.py lines 80-99):
the flattened row for a successful assessment, `none` (a logged skip) for
a failed one.  `pmid` is `tei_file.replace('.xml', '')`. -/
def robPerFile (env : RobEnv) (teiFile : String) : Option (List (String × JVal)) :=
  (assess_risk_of_bias env teiFile).map
    (flattenRob (teiFile.replace ".xml" ""))

/-- `batch_assess_rob`'s collected `rob_results` (assessor.py lines
66-108): the successful rows, in file order; failed files are skipped
(only a message is printed) and the loop continues. -/
def batch_assess_rob (env : RobEnv) (teiFiles : List String) :
    List (List (String × JVal)) :=
  teiFiles.filterMap (robPerFile env)

/-- Environment of the PICO extraction loop (app.py lines 372-393):
the completion call keyed by the pmid whose text snippet the prompt
embeds, and `json.loads`. -/
structure ExtractEnv where
  judgeExtract : String → Option String
  jsonParse : String → Option (List (String × JVal))

/-- One iteration of the extraction loop (app.py lines 377-393): the
response is scanned for a `({[\s\S]*})` block, the block is parsed, and on
success `data['pmid'] = pmid` is set and the record appended; a `None`
response (the regex then raises `TypeError`), a missing block, or a parse
error all fall into `except: pass` and produce no record.  main.py lines
393-410 differ only in trying a fenced ```json block first and in the
except clause printing; the stored record is the same parsed dict plus
`pmid`. -/
def extractOne (env : ExtractEnv) (pmid : String) :
    Option (List (String × JVal)) :=
  match env.judgeExtract pmid with
  | none => none
  | some response =>
    match braceBlock response with
    | none => none
    | some block =>
      match env.jsonParse block with
      | none => none
      | some data => some (assocSet data "pmid" (.str pmid))

/-- The artifact state a run reads and writes, one flag per derived
artifact file (directories and non-generated files are out of scope):
`articles.xml` (raw search payload), `retrieved_pmids.csv` and
`articles.csv` (ledger tables), `screening_results.csv`, the PDF
directory contents (file names), the TEI directory contents (per-article
converted text), `extracted_pico.csv`, `rob_assessment.csv`, and the run
report markdown. -/
structure ArtifactState where
  articlesXml : Bool
  retrievedPmidsCsv : Bool
  articlesCsv : Bool
  screeningResultsCsv : Bool
  pdfFiles : List String
  teiFiles : List String
  extractedPicoCsv : Bool
  robAssessmentCsv : Bool
  reportMd : Bool
deriving DecidableEq

/-- `clear_generated_data_files` (data_manager.py lines 11-42): removes
`data/raw/articles.xml`, `data/tables/retrieved_pmids.csv`,
`data/tables/articles.csv`, and every file in `data/pdf` whose lowercased
name ends with `.pdf`; nothing else is touched. -/
def clear_generated_data_files (st : ArtifactState) : ArtifactState :=
  { st with
    articlesXml := false
    retrievedPmidsCsv := false
    articlesCsv := false
    pdfFiles := st.pdfFiles.filter (fun f => !endsWithB (lowerString f) ".pdf") }

/-- Modelled from the spec (§6 wording, for comparison with the code): a
full reset leaves no derived artifact behind. -/
def noDerivedArtifactRemainsB (st : ArtifactState) : Bool :=
  !st.articlesXml && !st.retrievedPmidsCsv && !st.articlesCsv &&
  !st.screeningResultsCsv && st.pdfFiles.isEmpty && st.teiFiles.isEmpty &&
  !st.extractedPicoCsv && !st.robAssessmentCsv && !st.reportMd

theorem yearPred_eq_spec (cy : Nat) (a : RawArticle) :
    decide (parsePubYear cy a ≤ cy) = specRetainedYear cy a := by
  unfold parsePubYear specRetainedYear
  rcases a.pubYear? with _ | s
  · simp [Nat.not_succ_le_self]
  · dsimp only
    by_cases hc : (!s.toList.isEmpty && s.toList.all Char.isDigit) = true
    · rw [if_pos hc]
      have h1 : (!s.toList.isEmpty) = true ∧ s.toList.all Char.isDigit = true := by
        simpa using hc
      rw [h1.1, h1.2]
      simp
    · rw [if_neg hc]
      have hc2 : (!s.toList.isEmpty && s.toList.all Char.isDigit) = false := by
        revert hc
        cases (!s.toList.isEmpty && s.toList.all Char.isDigit) <;> simp
      rw [hc2]
      simp [Nat.not_succ_le_self]

/-- C2: the record normalizer retains a raw record iff its publication
year is present, numeric (`isdigit`), and at most the current year;
missing, non-numeric and future years are dropped (never given an
excluded mark — they simply do not appear in the output), the output is a
sublist of the input (order preserved), and concretely at current year
2025 a batch holding years [2026, 2025, missing] filters to exactly the
2025 record. -/
theorem c2_year_filter_correct (cy : Nat) (arts : List RawArticle) :
    filterByYear cy arts = arts.filter (specRetainedYear cy)
    ∧ (filterByYear cy arts).Sublist arts
    ∧ filterByYear 2025
        [⟨none, none, none, some "2026"⟩, ⟨none, none, none, some "2025"⟩,
         ⟨none, none, none, none⟩]
        = [⟨none, none, none, some "2025"⟩] := by
  refine ⟨?_, ?_, ?_⟩
  · exact List.filter_congr (fun a _ => yearPred_eq_spec cy a)
  · exact List.filter_sublist arts
  · decide

theorem screenOne_decision_cases (env : ScreenEnv) (r : ArticleRow) :
    (screenOne env r).decision = "Included" ∨ (screenOne env r).decision = "Excluded" := by
  unfold screenOne
  rcases classifyJudge env r with m | _ | _ | _ | data
  · exact Or.inl rfl
  · exact Or.inl rfl
  · exact Or.inl rfl
  · exact Or.inl rfl
  · dsimp only
    rcases assocGet data "decision" with _ | v
    · unfold normalizeDecision
      by_cases h : containsExcludeB "Included" = true
      · simp [h]
      · simp [h]
    · rcases v with s | fs | rep
      · unfold normalizeDecision
        by_cases h : containsExcludeB s = true
        · simp [h]
        · simp [h]
      · exact Or.inl rfl
      · exact Or.inl rfl

/-- C10: every decision the screening stage writes is exactly `Included`
or `Excluded`; for a single record the written decision is `Excluded` iff
the decision string parsed out of the judge's JSON contains `exclude`
case-insensitively (any missing, unparsed or non-string decision defaults
to `Included`); and the normalizer maps the decision string
`not excluded` to `Excluded`. -/
theorem c10_decision_normalization (env : ScreenEnv) (r : ArticleRow)
    (rows : List ArticleRow) :
    ((screen_abstracts env rows).all
      (fun o => o.decision == "Included" || o.decision == "Excluded")) = true
    ∧ ((screenOne env r).decision = "Excluded" ↔
        ∃ s, parsedDecisionStr env r = some s ∧ containsExcludeB s = true)
    ∧ normalizeDecision "not excluded" = "Excluded" := by
  refine ⟨?_, ?_, by decide⟩
  · unfold screen_abstracts
    by_cases hco : env.connOk = true
    · rw [if_pos hco]
      rw [List.all_eq_true]
      intro o ho
      rcases List.mem_map.mp ho with ⟨rr, _, hrr⟩
      subst hrr
      rcases screenOne_decision_cases env rr with h | h <;> simp [h]
    · rw [if_neg hco]
      rw [List.all_eq_true]
      intro o ho
      rcases List.mem_map.mp ho with ⟨rr, _, hrr⟩
      subst hrr
      simp
  · unfold screenOne parsedDecisionStr
    rcases classifyJudge env r with m | _ | _ | _ | data
    · simp
    · simp
    · simp
    · simp
    · dsimp only
      rcases assocGet data "decision" with _ | v
      · dsimp only
        constructor
        · intro h
          exact absurd h (by decide)
        · rintro ⟨s, hs, _⟩
          cases hs
      · rcases v with s | fs | rep
        · dsimp only
          unfold normalizeDecision
          by_cases h : containsExcludeB s = true
          · rw [if_pos h]
            exact ⟨fun _ => ⟨s, rfl, h⟩, fun _ => rfl⟩
          · rw [if_neg h]
            constructor
            · intro hI
              exact absurd hI (by decide)
            · rintro ⟨s2, hs2, hex⟩
              injection hs2 with he
              subst he
              exact absurd hex h
        · dsimp only
          constructor
          · intro h
            exact absurd h (by decide)
          · rintro ⟨s, hs, _⟩
            cases hs
        · dsimp only
          constructor
          · intro h
            exact absurd h (by decide)
          · rintro ⟨s, hs, _⟩
            cases hs

/-- The reasons the screening stage writes on its failure paths. -/
def screenFailReason (v : JVal) : Prop :=
  v = .str "LLM Unavailable" ∨ v = .str "No response from LLM" ∨
  v = .str "No JSON found in response" ∨ v = .str "JSON Decode Error" ∨
  ∃ m, v = .str ("Error during screening: " ++ m)

theorem screenOne_included_of_failed (env : ScreenEnv) (r : ArticleRow)
    (h : judgeFailedB env r = true) :
    (screenOne env r).decision = "Included" ∧
      screenFailReason (screenOne env r).reason := by
  unfold screenOne
  unfold judgeFailedB at h
  rcases hc : classifyJudge env r with m | _ | _ | _ | data
  · exact ⟨rfl, Or.inr (Or.inr (Or.inr (Or.inr ⟨m, rfl⟩)))⟩
  · exact ⟨rfl, Or.inr (Or.inl rfl)⟩
  · exact ⟨rfl, Or.inr (Or.inr (Or.inl rfl))⟩
  · exact ⟨rfl, Or.inr (Or.inr (Or.inr (Or.inl rfl)))⟩
  · rw [hc] at h
    simp at h

/-- C3: bias to include — when the connection probe fails every record is
written as `Included` with reason `LLM Unavailable`; when the judge
interaction for a record fails in any way (raises, `None` response, no
brace-delimited block, undecodable block) that record's decision is
`Included` with a reason reflecting the failure; and when the judge fails
for every record of the batch, every written decision is `Included`. -/
theorem c3_bias_to_include (env : ScreenEnv) (rows : List ArticleRow) :
    (env.connOk = false →
      ∀ o ∈ screen_abstracts env rows,
        o.decision = "Included" ∧ o.reason = JVal.str "LLM Unavailable")
    ∧ (∀ r, judgeFailedB env r = true →
        (screenOne env r).decision = "Included" ∧
          screenFailReason (screenOne env r).reason)
    ∧ ((∀ r ∈ rows, judgeFailedB env r = true) →
        ((screen_abstracts env rows).all
          (fun o => o.decision == "Included")) = true) := by
  refine ⟨?_, fun r hf => screenOne_included_of_failed env r hf, ?_⟩
  · intro hco o ho
    unfold screen_abstracts at ho
    rw [if_neg (by simp [hco])] at ho
    rcases List.mem_map.mp ho with ⟨rr, _, hrr⟩
    subst hrr
    exact ⟨rfl, rfl⟩
  · intro hall
    unfold screen_abstracts
    by_cases hco : env.connOk = true
    · rw [if_pos hco]
      rw [List.all_eq_true]
      intro o ho
      rcases List.mem_map.mp ho with ⟨rr, hmem, hrr⟩
      subst hrr
      have h := (screenOne_included_of_failed env rr (hall rr hmem)).1
      simp [h]
    · rw [if_neg hco]
      rw [List.all_eq_true]
      intro o ho
      rcases List.mem_map.mp ho with ⟨rr, _, hrr⟩
      subst hrr
      simp

/-- A screening environment whose judge always raises: used to instantiate
the bias-to-include theorem at a concrete failing batch.  `jsonParse` is
irrelevant on this path and set to the constant failure. -/
def envAllFail : ScreenEnv :=
  { connOk := true
    judge := fun _ => .raises "connection refused"
    jsonParse := fun _ => none }

theorem c3_bias_to_include_witness :
    ((screen_abstracts envAllFail
        [⟨"101", "Title A", "Abstract A"⟩, ⟨"102", "Title B", "Abstract B"⟩]).all
      (fun o => o.decision == "Included")) = true :=
  (c3_bias_to_include envAllFail
      [⟨"101", "Title A", "Abstract A"⟩, ⟨"102", "Title B", "Abstract B"⟩]).2.2
    (fun _ _ => rfl)


theorem assocGet_append_self {β : Type} (m : List (String × β)) (k : String)
    (v : β) (h : m.any (fun kv => kv.1 == k) = false) :
    assocGet (m ++ [(k, v)]) k = some v := by
  induction m with
  | nil =>
    unfold assocGet
    rw [List.nil_append, List.find?_cons_of_pos _ (by simp)]
    rfl
  | cons hd tl ih =>
    rw [List.any_cons] at h
    obtain ⟨h1, h2⟩ := Bool.or_eq_false_iff.mp h
    unfold assocGet at *
    rw [List.cons_append, List.find?_cons_of_neg _ (by simp [h1])]
    exact ih h2

theorem assocGet_map_self {β : Type} (m : List (String × β)) (k : String)
    (v : β) (h : m.any (fun kv => kv.1 == k) = true) :
    assocGet (m.map (fun kv => if kv.1 == k then (k, v) else kv)) k = some v := by
  induction m with
  | nil => simp at h
  | cons hd tl ih =>
    rw [List.any_cons] at h
    by_cases h1 : (hd.1 == k) = true
    · rw [List.map_cons, if_pos h1]
      unfold assocGet
      rw [List.find?_cons_of_pos _ (by simp)]
      rfl
    · have h1f : (hd.1 == k) = false := Bool.eq_false_iff.mpr h1
      have h2 : tl.any (fun kv => kv.1 == k) = true := by
        rcases Bool.or_eq_true_iff.mp h with hx | hx
        · exact absurd hx h1
        · exact hx
      rw [List.map_cons, if_neg (by simp [h1f])]
      unfold assocGet at *
      rw [List.find?_cons_of_neg _ (by simp [h1f])]
      exact ih h2

theorem assocGet_assocSet_self {β : Type} (m : List (String × β)) (k : String)
    (v : β) : assocGet (assocSet m k v) k = some v := by
  unfold assocSet
  by_cases h : m.any (fun kv => kv.1 == k) = true
  · rw [if_pos h]
    exact assocGet_map_self m k v h
  · rw [if_neg h]
    exact assocGet_append_self m k v (Bool.eq_false_iff.mpr h)

theorem assocGet_isSome_iff_mem_keys {β : Type} (m : List (String × β))
    (k : String) : (assocGet m k).isSome = true ↔ k ∈ assocKeys m := by
  induction m with
  | nil => simp [assocGet, assocKeys]
  | cons hd tl ih =>
    by_cases h1 : (hd.1 == k) = true
    · have he : hd.1 = k := by simpa using h1
      unfold assocGet
      rw [List.find?_cons, h1]
      simp [assocKeys, he]
    · have h1f : (hd.1 == k) = false := Bool.eq_false_iff.mpr h1
      have hne : hd.1 ≠ k := by simpa using h1f
      unfold assocGet at *
      rw [List.find?_cons, h1f]
      unfold assocKeys at *
      rw [List.map_cons, List.mem_cons]
      constructor
      · intro hs
        exact Or.inr (ih.mp hs)
      · rintro (he | hm)
        · exact absurd he.symm hne
        · exact ih.mpr hm

theorem assocKeys_map_set {β : Type} (m : List (String × β)) (k : String)
    (v : β) :
    assocKeys (m.map (fun kv => if kv.1 == k then (k, v) else kv)) = assocKeys m := by
  induction m with
  | nil => rfl
  | cons hd tl ih =>
    by_cases h1 : (hd.1 == k) = true
    · have he : hd.1 = k := by simpa using h1
      rw [List.map_cons, if_pos h1]
      unfold assocKeys at *
      rw [List.map_cons, List.map_cons, ih]
      simp [he]
    · have h1f : (hd.1 == k) = false := Bool.eq_false_iff.mpr h1
      rw [List.map_cons, if_neg (by simp [h1f])]
      unfold assocKeys at *
      rw [List.map_cons, List.map_cons, ih]

theorem assocKeys_assocSet {β : Type} (m : List (String × β)) (k : String)
    (v : β) :
    assocKeys (assocSet m k v) = assocKeys m ∨
      assocKeys (assocSet m k v) = assocKeys m ++ [k] := by
  unfold assocSet
  by_cases h : m.any (fun kv => kv.1 == k) = true
  · rw [if_pos h]
    exact Or.inl (assocKeys_map_set m k v)
  · rw [if_neg h]
    unfold assocKeys
    rw [List.map_append]
    exact Or.inr rfl

theorem not_mem_keys_of_any_false {β : Type} (m : List (String × β))
    (k : String) (h : m.any (fun kv => kv.1 == k) = false) :
    k ∉ assocKeys m := by
  intro hmem
  rcases List.mem_map.mp hmem with ⟨kv, hkv, hk⟩
  have : m.any (fun kv => kv.1 == k) = true :=
    List.any_eq_true.mpr ⟨kv, hkv, by simp [hk]⟩
  simp [this] at h

theorem assocKeys_assocSet_nodup {β : Type} (m : List (String × β))
    (k : String) (v : β) (h : (assocKeys m).Nodup) :
    (assocKeys (assocSet m k v)).Nodup := by
  unfold assocSet
  by_cases ha : m.any (fun kv => kv.1 == k) = true
  · rw [if_pos ha, assocKeys_map_set]
    exact h
  · rw [if_neg ha]
    unfold assocKeys
    rw [List.map_append]
    have hnot := not_mem_keys_of_any_false m k (Bool.eq_false_iff.mpr ha)
    simp only [List.map_cons, List.map_nil]
    rw [List.nodup_append]
    exact ⟨h, List.nodup_singleton k, by
      intro x hx hxk
      rcases List.mem_singleton.mp hxk with rfl
      exact hnot hx⟩

theorem mem_keys_assocSet_of_mem {β : Type} (m : List (String × β))
    (k k2 : String) (u : β) (h : k ∈ assocKeys m) :
    k ∈ assocKeys (assocSet m k2 u) := by
  rcases assocKeys_assocSet m k2 u with he | he <;> rw [he]
  · exact h
  · exact List.mem_append_left _ h

theorem runDownloadsAux_keeps_key (env : DlEnv) :
    ∀ (l : List RawArticle) (i : Nat) (m : List (String × String)) (k : String),
      k ∈ assocKeys m → k ∈ assocKeys (runDownloadsAux env i l m) := by
  intro l
  induction l with
  | nil => intro i m k h; exact h
  | cons a rest ih =>
    intro i m k h
    unfold runDownloadsAux
    exact ih (i + 1) _ k (mem_keys_assocSet_of_mem m k (pmidKeyOf i a) _ h)

theorem runDownloadsAux_covers (env : DlEnv) :
    ∀ (l : List RawArticle) (i : Nat) (m : List (String × String)) (j : Nat)
      (aj : RawArticle), l[j]? = some aj →
      pmidKeyOf (i + j) aj ∈ assocKeys (runDownloadsAux env i l m) := by
  intro l
  induction l with
  | nil => intro i m j aj h; simp at h
  | cons a rest ih =>
    intro i m j aj h
    cases j with
    | zero =>
      simp only [List.getElem?_cons_zero, Option.some.injEq] at h
      subst h
      unfold runDownloadsAux
      apply runDownloadsAux_keeps_key
      rw [Nat.add_zero]
      exact (assocGet_isSome_iff_mem_keys _ _).mp
        (by rw [assocGet_assocSet_self]; rfl)
    | succ j2 =>
      simp only [List.getElem?_cons_succ] at h
      unfold runDownloadsAux
      have hrec := ih (i + 1)
        (assocSet m (pmidKeyOf i a) (processArticle env a (pmidKeyOf i a)).1) j2 aj h
      have harith : i + 1 + j2 = i + (j2 + 1) := by omega
      rw [harith] at hrec
      exact hrec

theorem runDownloadsAux_keys_bound (env : DlEnv) :
    ∀ (l : List RawArticle) (i : Nat) (m : List (String × String)) (A : List String),
      (∀ a ∈ l, ∀ j, pmidKeyOf j a ∈ A) →
      (∀ x ∈ assocKeys m, x ∈ A) → (assocKeys m).Nodup →
      (∀ x ∈ assocKeys (runDownloadsAux env i l m), x ∈ A) ∧
        (assocKeys (runDownloadsAux env i l m)).Nodup := by
  intro l
  induction l with
  | nil => intro i m A _ hsub hnd; exact ⟨hsub, hnd⟩
  | cons a rest ih =>
    intro i m A hall hsub hnd
    unfold runDownloadsAux
    apply ih (i + 1) _ A
    · intro x hx j
      exact hall x (List.mem_cons_of_mem a hx) j
    · intro x hx
      rcases assocKeys_assocSet m (pmidKeyOf i a)
          (processArticle env a (pmidKeyOf i a)).1 with he | he
      · exact hsub x (he ▸ hx)
      · rw [he] at hx
        rcases List.mem_append.mp hx with hx1 | hx1
        · exact hsub x hx1
        · rcases List.mem_singleton.mp hx1 with rfl
          exact hall a (List.mem_cons_self a rest) i
    · exact assocKeys_assocSet_nodup m _ _ hnd

theorem download_status_length_le (env : DlEnv) (arts : List RawArticle)
    (allowed : List String) :
    (download_pdfs_from_xml env arts (some allowed)).length ≤ allowed.length := by
  have hall : ∀ a ∈ processedArts arts (some allowed), ∀ j, pmidKeyOf j a ∈ allowed := by
    intro a ha j
    unfold processedArts filterAllowed at ha
    have hp := List.of_mem_filter ha
    rcases hpm : a.pmid? with _ | p
    · rw [hpm] at hp
      simp at hp
    · rw [hpm] at hp
      have hc : allowed.contains p = true := (Bool.and_eq_true_iff.mp hp).2
      have hmem : p ∈ allowed := by simpa using hc
      unfold pmidKeyOf
      rw [hpm]
      exact hmem
  have hkeys := runDownloadsAux_keys_bound env
    (processedArts arts (some allowed)) 0 [] allowed hall
    (by intro x hx; simp [assocKeys] at hx) (by simp [assocKeys])
  have hlen : (download_pdfs_from_xml env arts (some allowed)).length =
      (assocKeys (download_pdfs_from_xml env arts (some allowed))).length := by
    unfold assocKeys
    rw [List.length_map]
  rw [hlen]
  unfold download_pdfs_from_xml
  exact (hkeys.2.subperm (fun x hx => hkeys.1 x hx)).length_le

/-- C6: idempotent re-run — when the local artifact for a record already
exists at the output path (`os.path.exists(output_dir/{pmid}.pdf)`), the
retrieval chain short-circuits with the code's already-present status
`"Already Downloaded"` (the spec's `AlreadyPresent`) and makes no external
call at all (empty call trace: no Unpaywall query, no URL download, no PMC
fetch). -/
theorem c6_idempotent_rerun (env : DlEnv) (a : RawArticle) (pmid : String)
    (h : env.fileExists pmid = true) :
    processArticle env a pmid = ("Already Downloaded", []) := by
  unfold processArticle
  rw [if_pos h]

/-- A retrieval environment whose artifact store already holds every file
and whose external sources are never consulted. -/
def envArtifactPresent : DlEnv :=
  { fileExists := fun _ => true
    unpaywallUrl := fun _ => some "https://example.org/a.pdf"
    urlDownloadOk := fun _ => true
    pmcOk := fun _ => true }

theorem c6_idempotent_rerun_witness :
    processArticle envArtifactPresent
      ⟨some "7", some "10.1000/xyz", some "PMC7", some "2020"⟩ "7"
      = ("Already Downloaded", []) :=
  c6_idempotent_rerun envArtifactPresent
    ⟨some "7", some "10.1000/xyz", some "PMC7", some "2020"⟩ "7" rfl

/-- C5: the fallback chain — (1) a failed Unpaywall download for a record
does not prevent the PMC step: under a failing URL download with a pmcid
present, the PMC fetch appears in the call trace; (2) the stage completes
for every record: each article of the processed batch ends up with a
status entry in the returned dict (no stage-wide abort); (3) when the
artifact is absent and every download step fails (or is skipped for a
missing identifier), the final status is the code's exhaustion marker
`"No OA Source Found"` (the spec's `AllSourcesExhausted`). -/
theorem c5_fallback_chain (env : DlEnv) (a : RawArticle) (pmid d u p : String)
    (arts : List RawArticle) (allowed? : Option (List String)) :
    (env.fileExists pmid = false → a.doi? = some d → d.toList.isEmpty = false →
      env.unpaywallUrl d = some u → env.urlDownloadOk u = false →
      a.pmcid? = some p → p.toList.isEmpty = false →
      DlCall.pmcFetch p ∈ (processArticle env a pmid).2)
    ∧ (∀ j aj, (processedArts arts allowed?)[j]? = some aj →
        pmidKeyOf j aj ∈ assocKeys (download_pdfs_from_xml env arts allowed?))
    ∧ (env.fileExists pmid = false →
      (∀ url, env.urlDownloadOk url = false) →
      (∀ q, env.pmcOk q = false) →
      (processArticle env a pmid).1 = "No OA Source Found") := by
  refine ⟨?_, ?_, ?_⟩
  · intro h1 h2 h3 h4 h5 h6 h7
    simp at h3 h7
    unfold processArticle
    rw [if_neg (by simp [h1])]
    simp [h2, h3, h4, h5, h6, h7]
    by_cases hp : env.pmcOk p = true <;> simp [hp, h3, h7]
  · intro j aj hj
    have := runDownloadsAux_covers env (processedArts arts allowed?) 0 [] j aj hj
    rw [Nat.zero_add] at this
    exact this
  · intro h1 hurl hpmc
    unfold processArticle
    rw [if_neg (by simp [h1])]
    rcases hd2 : a.doi? with _ | d2 <;> rcases hp2 : a.pmcid? with _ | p2
    · rfl
    · dsimp only
      cases hpe : p2.toList.isEmpty <;> simp at hpe <;> simp [hpe, hpmc]
    · dsimp only
      cases hde : d2.toList.isEmpty <;> simp at hde <;>
        rcases hu : env.unpaywallUrl d2 with _ | u2 <;> simp [hde, hu, hurl]
    · dsimp only
      cases hde : d2.toList.isEmpty <;> simp at hde <;>
        rcases hu : env.unpaywallUrl d2 with _ | u2 <;>
          cases hpe : p2.toList.isEmpty <;> simp at hpe <;>
            simp [hde, hu, hpe, hurl, hpmc]

/-- A retrieval environment with an empty artifact store, an Unpaywall
resolver that always finds a link, and download steps that always fail. -/
def envAllStepsFail : DlEnv :=
  { fileExists := fun _ => false
    unpaywallUrl := fun _ => some "https://example.org/a.pdf"
    urlDownloadOk := fun _ => false
    pmcOk := fun _ => false }

theorem c5_fallback_chain_witness :
    DlCall.pmcFetch "PMC9" ∈
      (processArticle envAllStepsFail
        ⟨some "9", some "10.1000/doi9", some "PMC9", some "2020"⟩ "9").2
    ∧ pmidKeyOf 0 ⟨some "9", some "10.1000/doi9", some "PMC9", some "2020"⟩ ∈
        assocKeys (download_pdfs_from_xml envAllStepsFail
          [⟨some "9", some "10.1000/doi9", some "PMC9", some "2020"⟩] (some ["9"]))
    ∧ (processArticle envAllStepsFail
        ⟨some "9", some "10.1000/doi9", some "PMC9", some "2020"⟩ "9").1
        = "No OA Source Found" := by
  have h := c5_fallback_chain envAllStepsFail
    ⟨some "9", some "10.1000/doi9", some "PMC9", some "2020"⟩
    "9" "10.1000/doi9" "https://example.org/a.pdf" "PMC9"
    [⟨some "9", some "10.1000/doi9", some "PMC9", some "2020"⟩] (some ["9"])
  refine ⟨h.1 rfl rfl (by decide) rfl rfl rfl (by decide), ?_, h.2.2 rfl (fun _ => rfl) (fun _ => rfl)⟩
  exact h.2.1 0 ⟨some "9", some "10.1000/doi9", some "PMC9", some "2020"⟩ (by decide)

/-- C4: the report funnel invariant — after the screening statistics
update, `excluded + included = screened`; and after the retrieval stage
(run over exactly the included pmids) updates the statistics,
`retrieved ≤ included`. -/
theorem c4_funnel_invariant (s0 : RunStats) (screened : List ScreenedRow)
    (env : DlEnv) (arts : List RawArticle) :
    (screenStatsUpdate s0 screened).excluded + (screenStatsUpdate s0 screened).included
        = (screenStatsUpdate s0 screened).screened
    ∧ (pipelineStats s0 screened env arts).retrieved
        ≤ (pipelineStats s0 screened env arts).included := by
  constructor
  · unfold screenStatsUpdate
    dsimp only
    exact Nat.sub_add_cancel (List.length_filter_le _ _)
  · unfold pipelineStats retrievalStatsUpdate screenStatsUpdate
    dsimp only
    calc (List.filter (fun kv => downloadedStatuses.contains kv.2)
            (download_pdfs_from_xml env arts (some (includedPmids screened)))).length
        ≤ (download_pdfs_from_xml env arts (some (includedPmids screened))).length :=
          List.length_filter_le _ _
      _ ≤ (includedPmids screened).length :=
          download_status_length_le env arts (includedPmids screened)
      _ = (screened.filter (fun r => r.decision == "Included")).length := by
          unfold includedPmids
          rw [List.length_map]

/-- A search environment modelling a successful esearch with 500 total
hits whose first page (`retmax = 1`) holds the single id `12345` — the
response NCBI returns for the count-only probe of main.py line 159. -/
def envEsearchOneHit : PubmedEnv :=
  { esearch := fun _ _ => .ok { idlist := ["12345"], count := 500 }
    efetchPost := fun _ => .ok "<PubmedArticleSet/>" }

/-- C1 (code bug): `fetch_pmids` returns only the id list — it never reads
the esearch response's `count` field and returns no
`(ids, total_count)` pair — so the count-only probe
`initial_pmids, total_count = pubmed.fetch_pmids(query, max_ret=1, ...)`
(main.py line 159, app.py line 249) tuple-unpacks a one-element list and
raises `ValueError` on every successful search. -/
theorem c1_count_probe_crashes :
    fetch_pmids envEsearchOneHit "heart failure[tiab]" 1 = ["12345"]
    ∧ mainCountProbe envEsearchOneHit "heart failure[tiab]"
        = .error "ValueError: unpack" :=
  ⟨rfl, rfl⟩

/-- A run state in which every derived artifact of a finished run exists:
raw payload, both ledger tables, screening results, one downloaded PDF
(plus the non-generated `readme.md`), one TEI file, the extracted-fields
table, the risk-of-bias table and the report. -/
def fullArtifactState : ArtifactState :=
  { articlesXml := true
    retrievedPmidsCsv := true
    articlesCsv := true
    screeningResultsCsv := true
    pdfFiles := ["123.pdf", "readme.md"]
    teiFiles := ["123.xml"]
    extractedPicoCsv := true
    robAssessmentCsv := true
    reportMd := true }

/-- C7 counterexample: running the explicit reset on a state holding every
derived artifact does NOT leave the state free of derived artifacts — the
screening results, TEI text, extracted-fields table, risk-of-bias table
and report survive, refuting the claim that the reset clears all derived
artifacts. -/
theorem c7_reset_counterexample :
    noDerivedArtifactRemainsB (clear_generated_data_files fullArtifactState) = false
    ∧ (clear_generated_data_files fullArtifactState).robAssessmentCsv = true
    ∧ (clear_generated_data_files fullArtifactState).teiFiles = ["123.xml"]
    ∧ (clear_generated_data_files fullArtifactState).reportMd = true := by
  refine ⟨by decide, rfl, rfl, rfl⟩

/-- C7 (amended): the explicit reset clears exactly the raw search
payload, the two ledger tables (`retrieved_pmids.csv`, `articles.csv`)
and every `.pdf` file of the PDF directory; the screening-results table,
the per-article TEI text, the extracted-fields table, the risk-of-bias
table and the run report are left untouched. -/
theorem c7_reset_clears_subset (st : ArtifactState) :
    (clear_generated_data_files st).articlesXml = false
    ∧ (clear_generated_data_files st).retrievedPmidsCsv = false
    ∧ (clear_generated_data_files st).articlesCsv = false
    ∧ ((clear_generated_data_files st).pdfFiles.all
        (fun f => !endsWithB (lowerString f) ".pdf")) = true
    ∧ (clear_generated_data_files st).screeningResultsCsv = st.screeningResultsCsv
    ∧ (clear_generated_data_files st).teiFiles = st.teiFiles
    ∧ (clear_generated_data_files st).extractedPicoCsv = st.extractedPicoCsv
    ∧ (clear_generated_data_files st).robAssessmentCsv = st.robAssessmentCsv
    ∧ (clear_generated_data_files st).reportMd = st.reportMd := by
  refine ⟨rfl, rfl, rfl, ?_, rfl, rfl, rfl, rfl, rfl⟩
  rw [List.all_eq_true]
  intro f hf
  exact (List.mem_filter.mp hf).2

/-- A risk-of-bias environment whose judge always raises, over non-empty
extracted text. -/
def envRobFail : RobEnv :=
  { extractText := fun _ => "body text"
    llm := fun _ => .raises "boom"
    jsonParse := fun _ => none }

/-- A search environment whose HTTP calls always raise
`requests.exceptions.RequestException`. -/
def envNetFail : PubmedEnv :=
  { esearch := fun _ _ => .error "RequestException"
    efetchPost := fun _ => .error "RequestException" }

/-- C8: stage totality — the risk-of-bias batch loop computes a defined
outcome (a row or the `None` failure marker) for every input document; a
judge call that raises for a document yields that document's `None` marker
instead of propagating (the `except Exception` of assessor.py line 61);
and `fetch_abstracts` degrades a raised network error on a non-empty
request to its `None` failure marker instead of raising (pubmed.py lines
86-88). -/
theorem c8_stage_totality (envR : RobEnv) (files : List String)
    (envP : PubmedEnv) (pmids : List String) :
    (files.map (robPerFile envR)).length = files.length
    ∧ (∀ f m, envR.llm (snippet12k (envR.extractText f)) = .raises m →
        robPerFile envR f = none)
    ∧ (∀ e, envP.efetchPost (String.intercalate "," pmids) = .error e →
        pmids.isEmpty = false →
        fetch_abstracts envP pmids = .failed) := by
  refine ⟨List.length_map _ _, ?_, ?_⟩
  · intro f m h
    unfold robPerFile assess_risk_of_bias
    by_cases he : (envR.extractText f).toList.isEmpty = true
    · rw [if_pos he]
      rfl
    · rw [if_neg he, h]
      rfl
  · intro e h hne
    unfold fetch_abstracts
    rw [if_neg (by simp [hne]), h]

theorem c8_stage_totality_witness :
    robPerFile envRobFail "123.xml" = none
    ∧ fetch_abstracts envNetFail ["1", "2"] = .failed := by
  have h := c8_stage_totality envRobFail ["123.xml"] envNetFail ["1", "2"]
  exact ⟨h.2.1 "123.xml" "boom" rfl, h.2.2 "RequestException" rfl rfl⟩

theorem mem_keys_of_any_true {β : Type} (m : List (String × β)) (k : String)
    (h : m.any (fun kv => kv.1 == k) = true) : k ∈ assocKeys m := by
  rcases List.any_eq_true.mp h with ⟨kv, hkv, hpk⟩
  have : kv.1 = k := by simpa using hpk
  exact this ▸ List.mem_map.mpr ⟨kv, hkv, rfl⟩

theorem mem_keys_assocSet_iff {β : Type} (d : List (String × β))
    (k0 k : String) (v : β) :
    k ∈ assocKeys (assocSet d k0 v) ↔ (k = k0 ∨ k ∈ assocKeys d) := by
  unfold assocSet
  by_cases h : d.any (fun kv => kv.1 == k0) = true
  · rw [if_pos h, assocKeys_map_set]
    constructor
    · exact Or.inr
    · rintro (rfl | hm)
      · exact mem_keys_of_any_true d k h
      · exact hm
  · rw [if_neg h]
    unfold assocKeys
    rw [List.map_append]
    simp only [List.map_cons, List.map_nil]
    rw [List.mem_append, List.mem_singleton]
    exact or_comm

/-- C9 (amended): a successfully extracted record is exactly the JSON
object parsed from the judge's response with `pmid` set on top of it;
hence a key is present in the stored record iff it is `pmid` or a key the
judge's JSON actually contained — the five PICO keys are requested from
the judge but their presence is not enforced by the code. -/
theorem c9_record_keys (env : ExtractEnv) (pmid : String)
    (resp block : String) (data : List (String × JVal))
    (h1 : env.judgeExtract pmid = some resp)
    (h2 : braceBlock resp = some block)
    (h3 : env.jsonParse block = some data) :
    extractOne env pmid = some (assocSet data "pmid" (JVal.str pmid))
    ∧ (∀ k, k ∈ assocKeys (assocSet data "pmid" (JVal.str pmid)) ↔
        (k = "pmid" ∨ k ∈ assocKeys data)) := by
  constructor
  · unfold extractOne
    rw [h1]
    dsimp only
    rw [h2]
    dsimp only
    rw [h3]
  · intro k
    exact mem_keys_assocSet_iff data "pmid" k (JVal.str pmid)

/-- An extraction environment whose judge answers with a well-formed
five-key PICO object; `jsonParse` models `json.loads` on the returned
block. -/
def envFiveKeys : ExtractEnv :=
  { judgeExtract := fun _ => some "\x7bJ\x7d"
    jsonParse := fun _ => some
      [("population", .str "adults"), ("intervention", .str "statins"),
       ("comparison", .str ""), ("outcome", .str "mortality"),
       ("study_design", .str "RCT")] }

theorem c9_record_keys_witness :
    extractOne envFiveKeys "42" = some
      [("population", .str "adults"), ("intervention", .str "statins"),
       ("comparison", .str ""), ("outcome", .str "mortality"),
       ("study_design", .str "RCT"), ("pmid", .str "42")] :=
  (c9_record_keys envFiveKeys "42" "\x7bJ\x7d" "\x7bJ\x7d"
    [("population", .str "adults"), ("intervention", .str "statins"),
     ("comparison", .str ""), ("outcome", .str "mortality"),
     ("study_design", .str "RCT")] rfl rfl rfl).1

/-- An extraction environment whose judge answers with a bare empty JSON
object; `jsonParse` models `json.loads`, which maps the two-character
object block to the empty mapping. -/
def envEmptyJson : ExtractEnv :=
  { judgeExtract := fun _ => some "\x7b\x7d"
    jsonParse := fun _ => some [] }

/-- C9 counterexample: a document whose judge output is the valid JSON
object with no fields is processed into a stored record whose only key is
`pmid` — `population` (and every other PICO key) is absent, refuting the
claim that every resulting record carries exactly the five PICO keys. -/
theorem c9_counterexample :
    (extractOne envEmptyJson "123").map (fun r => assocKeys r) = some ["pmid"]
    ∧ (extractOne envEmptyJson "123").map (fun r => assocGet r "population")
        = some none := by
  constructor
  · rfl
  · rfl
